import Mathlib

/-
  Verification development for the client-side synchronization engine:
  a shallow embedding of the per-account note reconciliation pipeline
  (yarn-project/pxe/src/note_processor/note_processor.ts) and the
  transaction-pool synchronization state machine (the P2P client), with
  theorems about the claims of the specification.

  Machine integers of the source are JS numbers used as integers; they are
  modelled as `Int` (block numbers, leaf indices) and `Nat` (opaque values
  such as field elements, keys, hashes).
-/

set_option maxHeartbeats 1000000

namespace Aztec

/-- A field element (opaque for the purposes of the pipeline). -/
abbrev Fr := Nat

/-- A public key (opaque). -/
abbrev PK := Nat

/-- A secret key (opaque). -/
abbrev SK := Nat

/-- A transaction hash (opaque). -/
abbrev TxHash := Nat

/-- Opaque ciphertext payload of one encrypted log. -/
abbrev LogData := Nat

/-- Plaintext result of a successful decryption: note content, contract
address, storage slot and note type identifier (`L1NotePayload`). -/
structure L1NotePayload where
  note : Nat
  contractAddress : Nat
  storageSlot : Nat
  noteTypeId : Nat
deriving DecidableEq, Inhabited

/-- A decrypted tagged note; the pipeline only uses its `notePayload`. -/
structure TaggedNote where
  notePayload : L1NotePayload
deriving DecidableEq, Inhabited

/-- One encrypted log (`log.data` is the ciphertext). -/
structure EncryptedLog where
  data : LogData
deriving DecidableEq, Inhabited

/-- The logs of one function call within a transaction. -/
structure FunctionL2Logs where
  logs : List EncryptedLog
deriving DecidableEq, Inhabited

/-- The logs of one transaction: an ordered list of per-function-call logs. -/
structure TxL2Logs where
  functionLogs : List FunctionL2Logs
deriving DecidableEq, Inhabited

/-- Encrypted logs of one block: one entry per transaction. -/
structure EncryptedNoteL2BlockL2Logs where
  txLogs : List TxL2Logs
deriving DecidableEq, Inhabited

/-- The committed effects of one transaction within a block. -/
structure TxEffect where
  txHash : TxHash
  noteHashes : List Fr
  nullifiers : List Fr
deriving DecidableEq, Inhabited

/-- The block header part used by the pipeline: it models
`header.state.partial.noteHashTree.nextAvailableLeafIndex`
(the nested path is flattened into a single field). -/
structure BlockHeader where
  nextAvailableLeafIndex : Int
deriving DecidableEq, Inhabited

/-- The block body part used by the pipeline (`numberOfTxsIncludingPadded`
and the ordered list of transaction effects). -/
structure L2BlockBody where
  numberOfTxsIncludingPadded : Int
  txEffects : List TxEffect
deriving DecidableEq, Inhabited

/-- An L2 block: a strictly increasing `number`, a header and a body. -/
structure L2Block where
  number : Int
  header : BlockHeader
  body : L2BlockBody
deriving DecidableEq, Inhabited

/-- The constant `MAX_NEW_NOTE_HASHES_PER_TX` imported from `circuits.js`
(its concrete value does not matter to any claim; 64 is the value of the
constant in the source tree's era). -/
def MAX_NEW_NOTE_HASHES_PER_TX : Int := 64

/-- An incoming note record (DAO) as stored by the note store: payload
fields, the computed siloed nullifier and the owning account's incoming
viewing public key. -/
structure IncomingNoteDao where
  contractAddress : Nat
  storageSlot : Nat
  noteTypeId : Nat
  note : Nat
  siloedNullifier : Fr
  ivpkM : PK
deriving DecidableEq, Inhabited

/-- An outgoing note record (DAO) as stored by the note store. -/
structure OutgoingNoteDao where
  contractAddress : Nat
  storageSlot : Nat
  noteTypeId : Nat
  note : Nat
  ovpkM : PK
deriving DecidableEq, Inhabited

/-- A deferred incoming note record: the payload plus enough context
(transaction hash, candidate note-hash search window, starting leaf index)
to retry materialization later. -/
structure DeferredNoteDao where
  ivpkM : PK
  note : Nat
  contractAddress : Nat
  storageSlot : Nat
  noteTypeId : Nat
  txHash : TxHash
  newNoteHashes : List Fr
  dataStartIndexForTx : Int
deriving DecidableEq, Inhabited

/-- Errors raised by the note pipeline (`process` / `decodeDeferredNotes`). -/
inductive PError where
  | batchLengthMismatch
  | decryptionPayloadConflict
  | deferredRetryFailed
deriving DecidableEq, Inhabited

/-- Decidable equality of `Except` results, for evaluating concrete runs. -/
instance instDecEqExcept {ε α : Type} [DecidableEq ε] [DecidableEq α] :
    DecidableEq (Except ε α) := fun x y =>
  match x, y with
  | .error a, .error b =>
    if h : a = b then isTrue (congrArg Except.error h)
    else isFalse (fun hc => h (Except.noConfusion hc id))
  | .ok a, .ok b =>
    if h : a = b then isTrue (congrArg Except.ok h)
    else isFalse (fun hc => h (Except.noConfusion hc id))
  | .error _, .ok _ => isFalse (fun hc => Except.noConfusion hc)
  | .ok _, .error _ => isFalse (fun hc => Except.noConfusion hc)

/-- Result of one `produceNoteDaos` call: the optional incoming, outgoing
and deferred records, and the updated set of excluded leaf indices (the
source mutates the `excludedIndices` set it is handed). -/
structure ProduceResult where
  incomingNote : Option IncomingNoteDao
  outgoingNote : Option OutgoingNoteDao
  incomingDeferredNote : Option DeferredNoteDao
  excludedIndices : List Nat
deriving DecidableEq, Inhabited

/-- Modelled from the spec: the external collaborators of the pipeline.
`getMasterSecretKey` models the key store; `decryptAsIncoming` and
`decryptAsOutgoing` model the decryption primitives
(`TaggedNote.decryptAsIncoming/decryptAsOutgoing`); `produceNoteDaos`
models `produce_note_dao.js` (not part of the sources), the
note-hashing/materialization collaborator; `remoteBlockNumber` models
`node.getBlockNumber()`; `createTxIds` models `createTxIds` of `tx.js`
(not part of the sources), listing the transaction identifiers of a
block. All are deterministic functions of their arguments. -/
structure Env where
  getMasterSecretKey : PK → SK
  decryptAsIncoming : LogData → SK → Option TaggedNote
  decryptAsOutgoing : LogData → SK → Option TaggedNote
  produceNoteDaos : Option PK → Option PK → L1NotePayload → TxHash → List Fr → Int → List Nat → ProduceResult
  remoteBlockNumber : Int
  createTxIds : L2Block → List Nat

/-- The per-account note processor: the account address, its incoming and
outgoing viewing public keys and the configured starting block. -/
structure NoteProcessor where
  account : Nat
  ivpkM : PK
  ovpkM : PK
  startingBlock : Int
deriving DecidableEq, Inhabited

/-- Modelled from the spec: the note/deferred store (`PxeDatabase`, not part
of the sources). Incoming, outgoing and deferred records are stored in
insertion order; the per-account synced-block watermark is an association
list keyed by the incoming viewing public key. -/
structure Db where
  incoming : List IncomingNoteDao
  outgoing : List OutgoingNoteDao
  deferred : List DeferredNoteDao
  syncedBlocks : List (PK × Int)
deriving DecidableEq, Inhabited

/-- Modelled from the spec: `addNotes(incoming, outgoing)` bulk-persists
records in order. -/
def Db.addNotes (db : Db) (inc : List IncomingNoteDao) (out : List OutgoingNoteDao) : Db :=
  { db with incoming := db.incoming ++ inc, outgoing := db.outgoing ++ out }

/-- Modelled from the spec: `addDeferredNotes(list)` bulk-persists deferred
records in order. -/
def Db.addDeferredNotes (db : Db) (ds : List DeferredNoteDao) : Db :=
  { db with deferred := db.deferred ++ ds }

/-- Modelled from the spec: `removeNullifiedNotes(nullifiers, account)`
removes every persisted incoming record of the given account whose
nullifier is among the given nullifiers. -/
def Db.removeNullifiedNotes (db : Db) (nullifiers : List Fr) (pk : PK) : Db :=
  { db with incoming :=
      db.incoming.filter (fun n => !(n.ivpkM == pk && nullifiers.contains n.siloedNullifier)) }

/-- Modelled from the spec: `setSynchedBlockNumberForPublicKey` persists the
watermark for the given account key. -/
def Db.setSynchedBlockNumberForPublicKey (db : Db) (pk : PK) (n : Int) : Db :=
  { db with syncedBlocks := (pk, n) :: db.syncedBlocks.filter (fun e => e.1 != pk) }

/-- Modelled from the spec: `getSynchedBlockNumberForPublicKey` reads the
watermark for the given account key, if any. -/
def Db.getSynchedBlockNumberForPublicKey (db : Db) (pk : PK) : Option Int :=
  (db.syncedBlocks.find? (fun e => e.1 == pk)).map (fun e => e.2)

/-- One persistence operation issued by the pipeline against the store,
recorded in issue order so that ordering claims can be stated. -/
inductive DbOp where
  | addNotes (inc : List IncomingNoteDao) (out : List OutgoingNoteDao)
  | addDeferredNotes (ds : List DeferredNoteDao)
  | removeNullifiedNotes (nullifiers : List Fr) (pk : PK)
  | setSynchedBlock (pk : PK) (n : Int)
deriving DecidableEq, Inhabited

/-- `dataStartIndexForBlock` of `process`: the leaf-index offset of the
block's first transaction, `header.state.partial.noteHashTree.nextAvailableLeafIndex -
body.numberOfTxsIncludingPadded * MAX_NEW_NOTE_HASHES_PER_TX`. -/
def dataStartIndexForBlock (block : L2Block) : Int :=
  block.header.nextAvailableLeafIndex -
    block.body.numberOfTxsIncludingPadded * MAX_NEW_NOTE_HASHES_PER_TX

/-- `dataStartIndexForTx` of `process`: the starting leaf-index offset of the
transaction at index `i`, `dataStartIndexForBlock + i * MAX_NEW_NOTE_HASHES_PER_TX`. -/
def dataStartIndexForTx (block : L2Block) (i : Nat) : Int :=
  dataStartIndexForBlock block + (i : Int) * MAX_NEW_NOTE_HASHES_PER_TX

/-- Accumulator of the per-transaction log loop: the excluded leaf indices
claimed so far in this transaction, and the incoming, outgoing and deferred
records accumulated so far. -/
structure TxAcc where
  excludedIndices : List Nat
  incomingNotes : List IncomingNoteDao
  outgoingNotes : List OutgoingNoteDao
  deferred : List DeferredNoteDao
deriving DecidableEq, Inhabited

/-- Appends the results of one `produceNoteDaos` call to the accumulator
(the `if (incomingNote) \x7b ... push ... \x7d` block of the source). -/
def TxAcc.push (acc : TxAcc) (r : ProduceResult) : TxAcc :=
  { excludedIndices := r.excludedIndices,
    incomingNotes := acc.incomingNotes ++ r.incomingNote.toList,
    outgoingNotes := acc.outgoingNotes ++ r.outgoingNote.toList,
    deferred := acc.deferred ++ r.incomingDeferredNote.toList }

/-- The body of the innermost loop of `process` for one encrypted log:
decrypt as incoming and as outgoing; if neither succeeds the log is not for
this account; if both succeed with different payloads the batch fails with
a payload conflict; otherwise `produceNoteDaos` is invoked with the keys
that succeeded and the results are accumulated. -/
def processLog (env : Env) (np : NoteProcessor) (ivskM ovskM : SK)
    (txHash : TxHash) (newNoteHashes : List Fr) (dataStartIndex : Int)
    (log : EncryptedLog) (acc : TxAcc) : Except PError TxAcc :=
  match env.decryptAsIncoming log.data ivskM, env.decryptAsOutgoing log.data ovskM with
  | none, none => .ok acc
  | some it, some ot =>
    if it.notePayload = ot.notePayload then
      .ok (acc.push (env.produceNoteDaos (some np.ivpkM) (some np.ovpkM) it.notePayload
        txHash newNoteHashes dataStartIndex acc.excludedIndices))
    else
      .error .decryptionPayloadConflict
  | some it, none =>
    .ok (acc.push (env.produceNoteDaos (some np.ivpkM) none it.notePayload
      txHash newNoteHashes dataStartIndex acc.excludedIndices))
  | none, some ot =>
    .ok (acc.push (env.produceNoteDaos none (some np.ovpkM) ot.notePayload
      txHash newNoteHashes dataStartIndex acc.excludedIndices))

/-- The per-transaction log loop of `process` over a list of logs (the
source's nested `for (functionLogs of txFunctionLogs) for (log of
functionLogs.logs)` loops, flattened into one list of logs). -/
def processLogList (env : Env) (np : NoteProcessor) (ivskM ovskM : SK)
    (txHash : TxHash) (newNoteHashes : List Fr) (dataStartIndex : Int) :
    List EncryptedLog → TxAcc → Except PError TxAcc
  | [], acc => .ok acc
  | log :: rest, acc =>
    match processLog env np ivskM ovskM txHash newNoteHashes dataStartIndex log acc with
    | .error e => .error e
    | .ok acc' => processLogList env np ivskM ovskM txHash newNoteHashes dataStartIndex rest acc'

/-- Processing of the transaction at index `i` of a block: computes its
starting leaf-index offset and its new note hashes and transaction hash
from `body.txEffects[i]`, and runs the log loop with a fresh (empty)
excluded-index set. -/
def processTx (env : Env) (np : NoteProcessor) (ivskM ovskM : SK)
    (block : L2Block) (i : Nat) (txLog : TxL2Logs) : Except PError TxAcc :=
  let effect := block.body.txEffects.getD i default
  processLogList env np ivskM ovskM effect.txHash effect.noteHashes
    (dataStartIndexForTx block i)
    (txLog.functionLogs.flatMap (fun f => f.logs)) ⟨[], [], [], []⟩

/-- The per-block transaction loop of `process`, starting at transaction
index `i`: accumulates the incoming and outgoing records of the block and
the deferred records, in transaction order. -/
def processTxs (env : Env) (np : NoteProcessor) (ivskM ovskM : SK) (block : L2Block) :
    Nat → List TxL2Logs →
    Except PError (List IncomingNoteDao × List OutgoingNoteDao × List DeferredNoteDao)
  | _, [] => .ok ([], [], [])
  | i, txLog :: rest =>
    match processTx env np ivskM ovskM block i txLog with
    | .error e => .error e
    | .ok acc =>
      match processTxs env np ivskM ovskM block (i + 1) rest with
      | .error e => .error e
      | .ok (incs, outs, defs) =>
        .ok (acc.incomingNotes ++ incs, acc.outgoingNotes ++ outs, acc.deferred ++ defs)

/-- The per-block data accumulated by `process` (`ProcessedData`). -/
structure ProcessedData where
  block : L2Block
  incomingNotes : List IncomingNoteDao
  outgoingNotes : List OutgoingNoteDao
deriving DecidableEq, Inhabited

/-- Processing of one block with its encrypted logs: runs the transaction
loop from index 0 and returns the block's `ProcessedData` together with the
deferred records contributed by this block. -/
def processBlock (env : Env) (np : NoteProcessor) (ivskM ovskM : SK)
    (block : L2Block) (blockLogs : EncryptedNoteL2BlockL2Logs) :
    Except PError (ProcessedData × List DeferredNoteDao) :=
  match processTxs env np ivskM ovskM block 0 blockLogs.txLogs with
  | .error e => .error e
  | .ok (incs, outs, defs) => .ok (⟨block, incs, outs⟩, defs)

/-- The batch loop of `process` over (block, logs) pairs: accumulates the
per-block `ProcessedData` in block order and the deferred records of the
whole batch in block order. -/
def processBatch (env : Env) (np : NoteProcessor) (ivskM ovskM : SK) :
    List (L2Block × EncryptedNoteL2BlockL2Logs) →
    Except PError (List ProcessedData × List DeferredNoteDao)
  | [] => .ok ([], [])
  | (b, l) :: rest =>
    match processBlock env np ivskM ovskM b l with
    | .error e => .error e
    | .ok (pd, defs) =>
      match processBatch env np ivskM ovskM rest with
      | .error e => .error e
      | .ok (pds, moreDefs) => .ok (pd :: pds, defs ++ moreDefs)

/-- The incoming records of a processed batch
(`blocksAndNotes.flatMap(b => b.incomingNotes)`). -/
def incomingOfBatch (pds : List ProcessedData) : List IncomingNoteDao :=
  pds.flatMap (fun p => p.incomingNotes)

/-- The outgoing records of a processed batch
(`blocksAndNotes.flatMap(b => b.outgoingNotes)`). -/
def outgoingOfBatch (pds : List ProcessedData) : List OutgoingNoteDao :=
  pds.flatMap (fun p => p.outgoingNotes)

/-- The union (in emission order) of all nullifiers emitted by all
transactions of a processed batch. -/
def batchNullifiers (pds : List ProcessedData) : List Fr :=
  pds.flatMap (fun p => p.block.body.txEffects.flatMap (fun t => t.nullifiers))

/-- `processBlocksAndNotes`: bulk-persists the batch's incoming and
outgoing records when there are any, then removes the nullified incoming
records of this account; returns the new store and the persistence
operations issued, in order. -/
def processBlocksAndNotes (np : NoteProcessor) (db : Db) (blocksAndNotes : List ProcessedData) :
    Db × List DbOp :=
  let incomingNotes := incomingOfBatch blocksAndNotes
  let outgoingNotes := outgoingOfBatch blocksAndNotes
  let step1 : Db × List DbOp :=
    if incomingNotes.isEmpty && outgoingNotes.isEmpty then (db, ([] : List DbOp))
    else (db.addNotes incomingNotes outgoingNotes, [DbOp.addNotes incomingNotes outgoingNotes])
  let newNullifiers := batchNullifiers blocksAndNotes
  (step1.1.removeNullifiedNotes newNullifiers np.ivpkM,
    step1.2 ++ [DbOp.removeNullifiedNotes newNullifiers np.ivpkM])

/-- `processDeferredNotes`: bulk-persists the deferred records when there
are any; returns the new store and the persistence operations issued. -/
def processDeferredNotes (db : Db) (deferredNoteDaos : List DeferredNoteDao) : Db × List DbOp :=
  if deferredNoteDaos.isEmpty then (db, [])
  else (db.addDeferredNotes deferredNoteDaos, [DbOp.addDeferredNotes deferredNoteDaos])

/-- The last block number of a batch (`l2Blocks[l2Blocks.length - 1].number`). -/
def lastBlockNumber (l2Blocks : List L2Block) : Int :=
  (l2Blocks.getLast?.getD default).number

/-- `NoteProcessor.process`: fails if the numbers of blocks and log batches
differ; is a no-op on empty input; otherwise runs the batch loop and, on
success, persists in order: the batch's records, the nullifier removals,
the deferred records, and finally the watermark (the batch's last block
number). Returns the new store and the persistence trace; an error commits
nothing (all persistence happens after the loop in the source). -/
def NoteProcessor.process (env : Env) (np : NoteProcessor) (db : Db)
    (l2Blocks : List L2Block) (encryptedL2BlockLogs : List EncryptedNoteL2BlockL2Logs) :
    Except PError (Db × List DbOp) :=
  if l2Blocks.length ≠ encryptedL2BlockLogs.length then .error .batchLengthMismatch
  else if l2Blocks.isEmpty then .ok (db, [])
  else
    let ivskM := env.getMasterSecretKey np.ivpkM
    let ovskM := env.getMasterSecretKey np.ovpkM
    match processBatch env np ivskM ovskM (l2Blocks.zip encryptedL2BlockLogs) with
    | .error e => .error e
    | .ok (blocksAndNotes, deferredNoteDaosIncoming) =>
      let p1 := processBlocksAndNotes np db blocksAndNotes
      let p2 := processDeferredNotes p1.1 deferredNoteDaosIncoming
      let syncedToBlock := lastBlockNumber l2Blocks
      .ok (p2.1.setSynchedBlockNumberForPublicKey np.ivpkM syncedToBlock,
        p1.2 ++ p2.2 ++ [DbOp.setSynchedBlock np.ivpkM syncedToBlock])

/-- The store state after a `process` call as seen by the caller: the new
store on success, the unchanged store when the call throws. -/
def runProcess (env : Env) (np : NoteProcessor) (db : Db)
    (l2Blocks : List L2Block) (logs : List EncryptedNoteL2BlockL2Logs) : Db :=
  match NoteProcessor.process env np db l2Blocks logs with
  | .ok (db', _) => db'
  | .error _ => db

/-- `getSyncedToBlock`: the stored watermark for this account's incoming
viewing key, defaulting to `startingBlock - 1`. -/
def getSyncedToBlock (np : NoteProcessor) (db : Db) : Int :=
  (db.getSynchedBlockNumberForPublicKey np.ivpkM).getD (np.startingBlock - 1)

/-- The synchronization status exposed by the pipeline. -/
structure SyncStatus where
  syncedToBlock : Int
deriving DecidableEq, Inhabited

/-- The `status` getter of the note processor. -/
def NoteProcessor.status (np : NoteProcessor) (db : Db) : SyncStatus :=
  ⟨getSyncedToBlock np db⟩

/-- `isSynchronized`: true iff the pipeline's watermark equals the remote
block number. -/
def NoteProcessor.isSynchronized (env : Env) (np : NoteProcessor) (db : Db) : Bool :=
  getSyncedToBlock np db == env.remoteBlockNumber

/-- The auxiliary loop of `decodeDeferredNotes`, threading the shared
excluded-index set and the accumulated incoming records: records of a
different account are skipped; a record of this account that still fails to
materialize is a fatal error. -/
def decodeDeferredNotesAux (env : Env) (np : NoteProcessor) :
    List DeferredNoteDao → List Nat → List IncomingNoteDao →
    Except PError (List IncomingNoteDao)
  | [], _, acc => .ok acc
  | d :: rest, excluded, acc =>
    if d.ivpkM ≠ np.ivpkM then
      decodeDeferredNotesAux env np rest excluded acc
    else
      let payload : L1NotePayload := ⟨d.note, d.contractAddress, d.storageSlot, d.noteTypeId⟩
      let r := env.produceNoteDaos (some np.ivpkM) none payload d.txHash d.newNoteHashes
        d.dataStartIndexForTx excluded
      match r.incomingNote with
      | none => .error .deferredRetryFailed
      | some n => decodeDeferredNotesAux env np rest r.excludedIndices (acc ++ [n])

/-- `decodeDeferredNotes`: retries materialization of previously deferred
records, with one shared excluded-index set across all records. -/
def NoteProcessor.decodeDeferredNotes (env : Env) (np : NoteProcessor)
    (deferredNoteDaos : List DeferredNoteDao) : Except PError (List IncomingNoteDao) :=
  decodeDeferredNotesAux env np deferredNoteDaos [] []

/-- The states of the P2P client (`P2PClientState`). -/
inductive P2PClientState where
  | idle
  | synching
  | running
  | stopped
deriving DecidableEq, Inhabited

/-- The mutable fields of the P2P client relevant to its state machine:
the stopping flag, the watermark (`currentL2BlockNum`), the current state,
the remote tip captured at `start()` time, whether the catch-up signal
(`syncPromise`) is still pending, and the transaction pool contents. -/
structure P2PState where
  stopping : Bool
  currentL2BlockNum : Int
  currentState : P2PClientState
  latestBlockNumberAtStart : Int
  syncPending : Bool
  txPool : List Nat
deriving DecidableEq, Inhabited

/-- The observable outcome of one `start()` call: the call threw the
terminal already-stopped error; the call returned the in-flight catch-up
signal (state was not Idle); or the call performed a start, recording the
state transitions it made (in order) and whether the returned catch-up
signal was already resolved. -/
inductive StartOutcome where
  | alreadyStopped
  | inFlight (pending : Bool)
  | started (observed : List P2PClientState) (syncImmediate : Bool)
deriving DecidableEq, Inhabited

/-- `P2PClient.start`: throws if Stopped; returns the in-flight signal if
not Idle; otherwise captures the remote tip, and either transitions to
Synching with a pending catch-up signal (when `currentL2BlockNum + 1` is at
most the tip) or directly to Running with an immediately resolved signal. -/
def P2PClient.start (env : Env) (s : P2PState) : StartOutcome × P2PState :=
  if s.currentState = .stopped then (.alreadyStopped, s)
  else if s.currentState ≠ .idle then (.inFlight s.syncPending, s)
  else
    let latest := env.remoteBlockNumber
    let blockToDownloadFrom := s.currentL2BlockNum + 1
    if blockToDownloadFrom ≤ latest then
      (.started [P2PClientState.synching] false,
        { s with currentState := .synching, latestBlockNumberAtStart := latest,
                 syncPending := true })
    else
      (.started [P2PClientState.running] true,
        { s with currentState := .running, latestBlockNumberAtStart := latest,
                 syncPending := false })

/-- `P2PClient.stop`: sets the stopping flag, waits for the background loop
to exit, and transitions to Stopped. -/
def P2PClient.stop (s : P2PState) : P2PState :=
  { s with stopping := true, currentState := .stopped }

/-- A persistence/pool operation issued by the P2P client, in issue order. -/
inductive P2POp where
  | deleteTxs (ids : List Nat)
  | setSyncedBlock (n : Int)
deriving DecidableEq, Inhabited

/-- `reconcileTxPool`: for each block of the batch in order, deletes from
the pool every transaction identifier appearing in that block. -/
def reconcileTxPool (env : Env) (blocks : List L2Block) (pool : List Nat) :
    List Nat × List P2POp :=
  blocks.foldl
    (fun acc b =>
      let txIds := env.createTxIds b
      (acc.1.filter (fun t => !(txIds.contains t)), acc.2 ++ [P2POp.deleteTxs txIds]))
    (pool, [])

/-- `P2PClient.handleL2Blocks`: a no-op on an empty batch; otherwise
reconciles the pool against the batch, advances the watermark to the
batch's last block number, and, if Synching and the watermark has reached
the tip captured at `start()` time, transitions to Running and resolves the
catch-up signal. -/
def P2PClient.handleL2Blocks (env : Env) (s : P2PState) (blocks : List L2Block) :
    P2PState × List P2POp :=
  if blocks.isEmpty then (s, [])
  else
    let r := reconcileTxPool env blocks s.txPool
    let num := lastBlockNumber blocks
    let s1 := { s with txPool := r.1, currentL2BlockNum := num }
    let s2 :=
      if s1.currentState = .synching ∧ num ≥ s1.latestBlockNumberAtStart then
        { s1 with currentState := .running, syncPending := false }
      else s1
    (s2, r.2 ++ [P2POp.setSyncedBlock num])

/-- Repeats `start()` the given number of times, collecting the outcomes. -/
def repeatStart (env : Env) (s : P2PState) : Nat → List StartOutcome × P2PState
  | 0 => ([], s)
  | n + 1 =>
    let (r, s1) := P2PClient.start env s
    let (rs, s2) := repeatStart env s1 n
    (r :: rs, s2)

/-
  Concrete instances used by witnesses and counterexamples.
-/

/-- A concrete note processor: account 0, incoming viewing key 10, outgoing
viewing key 11, starting block 1. -/
def exNp : NoteProcessor := ⟨0, 10, 11, 1⟩

/-- The empty store. -/
def emptyDb : Db := ⟨[], [], [], []⟩

/-- A block with the given number, no transactions and a zero header index. -/
def mkBlock (n : Int) : L2Block := ⟨n, ⟨0⟩, ⟨0, []⟩⟩

/-- An empty per-block log batch. -/
def emptyLogs : EncryptedNoteL2BlockL2Logs := ⟨[]⟩

/-- An environment in which no log decrypts and materialization always
produces nothing. -/
def noDecryptEnv : Env :=
  ⟨fun pk => pk, fun _ _ => none, fun _ _ => none,
    fun _ _ _ _ _ _ ex => ⟨none, none, none, ex⟩, 0, fun _ => []⟩

/-- The no-decrypt environment with remote tip 5. -/
def tipEnv5 : Env := { noDecryptEnv with remoteBlockNumber := 5 }

/-- An environment in which every log decrypts as incoming (payload
note 1, contract 2, slot 3, type 4) and materialization always defers
(the owning contract's code is unavailable). -/
def defEnv : Env :=
  ⟨fun pk => pk, fun _ _ => some ⟨⟨1, 2, 3, 4⟩⟩, fun _ _ => none,
    fun _ _ p tx hashes dsi ex =>
      ⟨none, none, some ⟨10, p.note, p.contractAddress, p.storageSlot, p.noteTypeId, tx, hashes, dsi⟩, ex⟩,
    0, fun _ => []⟩

/-- A block numbered 5 with one transaction (hash 7, no note hashes, no
nullifiers) and header index 64. -/
def blockD : L2Block := ⟨5, ⟨64⟩, ⟨1, [⟨7, [], []⟩]⟩⟩

/-- A log batch for `blockD`: one transaction with one function call
carrying one encrypted log. -/
def logsD : EncryptedNoteL2BlockL2Logs := ⟨[⟨[⟨[⟨0⟩]⟩]⟩]⟩

/-- A concrete idle P2P client state with watermark 5. -/
def idleState : P2PState := ⟨false, 5, .idle, -1, false, []⟩

/-
  Claim C4.
-/

/-- Claim C4: `process` with mismatched block/log-batch lengths fails
immediately with the length-mismatch error and leaves the store (and hence
the watermark) unchanged; `process` on empty input is a no-op that issues
no persistence operation and returns the store unchanged. -/
theorem claimC4 (env : Env) (np : NoteProcessor) (db : Db)
    (blocks : List L2Block) (logs : List EncryptedNoteL2BlockL2Logs)
    (h : blocks.length ≠ logs.length) :
    NoteProcessor.process env np db blocks logs = .error .batchLengthMismatch ∧
    runProcess env np db blocks logs = db ∧
    NoteProcessor.process env np db [] [] = .ok (db, []) := by
  have h1 : NoteProcessor.process env np db blocks logs = .error .batchLengthMismatch := by
    unfold NoteProcessor.process
    rw [if_pos h]
  refine ⟨h1, ?_, ?_⟩
  · unfold runProcess
    rw [h1]
  · unfold NoteProcessor.process
    simp

/-- Witness for claim C4 at a concrete input: one block and zero log
batches is rejected with the length-mismatch error; the empty call is a
no-op. -/
theorem claimC4_witness :
    NoteProcessor.process noDecryptEnv exNp emptyDb [mkBlock 5] [] = .error .batchLengthMismatch ∧
    runProcess noDecryptEnv exNp emptyDb [mkBlock 5] [] = emptyDb ∧
    NoteProcessor.process noDecryptEnv exNp emptyDb [] [] = .ok (emptyDb, []) :=
  claimC4 noDecryptEnv exNp emptyDb [mkBlock 5] [] (by decide)

/-
  Claim C6.
-/

/-- Claim C6: the leaf-index offset of a block's first transaction equals
the header's next-available-leaf-index minus (padded transaction count
times the maximum notes per transaction); the starting offset of the
transaction at index `i` equals the block offset plus `i` times the
maximum notes per transaction; and the per-transaction processing of the
pipeline passes exactly that offset for transaction `i`. -/
theorem claimC6 (block : L2Block) (i : Nat) :
    dataStartIndexForBlock block =
      block.header.nextAvailableLeafIndex -
        block.body.numberOfTxsIncludingPadded * MAX_NEW_NOTE_HASHES_PER_TX ∧
    dataStartIndexForTx block i =
      dataStartIndexForBlock block + (i : Int) * MAX_NEW_NOTE_HASHES_PER_TX ∧
    ∀ (env : Env) (np : NoteProcessor) (ivskM ovskM : SK) (txLog : TxL2Logs),
      processTx env np ivskM ovskM block i txLog =
        processLogList env np ivskM ovskM (block.body.txEffects.getD i default).txHash
          (block.body.txEffects.getD i default).noteHashes
          (block.header.nextAvailableLeafIndex -
            block.body.numberOfTxsIncludingPadded * MAX_NEW_NOTE_HASHES_PER_TX +
            (i : Int) * MAX_NEW_NOTE_HASHES_PER_TX)
          (txLog.functionLogs.flatMap (fun f => f.logs)) ⟨[], [], [], []⟩ :=
  ⟨rfl, rfl, fun _ _ _ _ _ => rfl⟩

/-
  Claim C7.
-/

/-- A `start()` call in the Stopped state throws the terminal error and
changes nothing. -/
theorem start_on_stopped (env : Env) (s : P2PState) (h : s.currentState = .stopped) :
    P2PClient.start env s = (.alreadyStopped, s) := by
  unfold P2PClient.start
  rw [h]
  simp

/-- Any number of repeated `start()` calls from a Stopped state all fail
with the terminal error and leave the state Stopped. -/
theorem repeatStart_stopped (env : Env) (n : Nat) :
    ∀ s : P2PState, s.currentState = .stopped →
      repeatStart env s n = (List.replicate n StartOutcome.alreadyStopped, s) := by
  induction n with
  | zero => intro s _; rfl
  | succ n ih =>
    intro s h
    simp only [repeatStart, start_on_stopped env s h, ih s h, List.replicate_succ]

/-- Claim C7: after `stop()` completes, every subsequent `start()` call
fails with the terminal already-stopped error, no matter how many times it
is retried, and the client remains Stopped. -/
theorem claimC7 (env : Env) (s : P2PState) (n : Nat) :
    repeatStart env (P2PClient.stop s) n =
      (List.replicate n StartOutcome.alreadyStopped, P2PClient.stop s) :=
  repeatStart_stopped env n (P2PClient.stop s) rfl

/-
  Claim C8.
-/

/-- Claim C8: a `start()` call in the Idle state whose next block to fetch
(watermark + 1) exceeds the remote tip observed at start time transitions
directly to Running (the only observed transition is to Running, never to
Synching) and returns an immediately resolved catch-up signal. -/
theorem claimC8 (env : Env) (s : P2PState) (hidle : s.currentState = .idle)
    (htip : env.remoteBlockNumber < s.currentL2BlockNum + 1) :
    P2PClient.start env s =
      (StartOutcome.started [P2PClientState.running] true,
        { s with currentState := .running,
                 latestBlockNumberAtStart := env.remoteBlockNumber,
                 syncPending := false }) := by
  unfold P2PClient.start
  rw [hidle]
  rw [if_neg (by simp), if_neg (by simp), if_neg (by omega)]

/-- Witness for claim C8: an idle client at watermark 5 with remote tip 5
starts directly into Running with an immediate catch-up signal. -/
theorem claimC8_witness :
    P2PClient.start tipEnv5 idleState =
      (StartOutcome.started [P2PClientState.running] true,
        ⟨false, 5, .running, 5, false, []⟩) :=
  claimC8 tipEnv5 idleState rfl (by decide)

/-
  Claim C10.
-/

/-- Claim C10: before any batch has been reconciled for the account (no
synced-block entry for its incoming viewing key), `status.syncedToBlock`
equals the configured starting block minus one, and `isSynchronized`
compares that same default value with the remote tip. -/
theorem claimC10 (env : Env) (np : NoteProcessor) (db : Db)
    (h : db.getSynchedBlockNumberForPublicKey np.ivpkM = none) :
    (NoteProcessor.status np db).syncedToBlock = np.startingBlock - 1 ∧
    (NoteProcessor.isSynchronized env np db = true ↔
      np.startingBlock - 1 = env.remoteBlockNumber) := by
  have hsync : getSyncedToBlock np db = np.startingBlock - 1 := by
    unfold getSyncedToBlock
    rw [h]
    rfl
  constructor
  · simpa [NoteProcessor.status] using hsync
  · unfold NoteProcessor.isSynchronized
    rw [hsync]
    exact beq_iff_eq

/-- Witness for claim C10: the empty store has no synced-block entry, so
the concrete processor (starting block 1) reports watermark 0 and is
synchronized exactly when the remote tip is 0. -/
theorem claimC10_witness :
    (NoteProcessor.status exNp emptyDb).syncedToBlock = exNp.startingBlock - 1 ∧
    (NoteProcessor.isSynchronized noDecryptEnv exNp emptyDb = true ↔
      exNp.startingBlock - 1 = noDecryptEnv.remoteBlockNumber) :=
  claimC10 noDecryptEnv exNp emptyDb rfl

/-
  Claim C9.
-/

/-- Skipping records of a different account changes nothing: the deferred
decode loop gives the same result on a list and on the sublist of records
belonging to this pipeline's account. -/
theorem decodeDeferredNotesAux_filter (env : Env) (np : NoteProcessor) :
    ∀ (ds : List DeferredNoteDao) (excluded : List Nat) (acc : List IncomingNoteDao),
      decodeDeferredNotesAux env np ds excluded acc =
        decodeDeferredNotesAux env np (ds.filter (fun d => d.ivpkM == np.ivpkM)) excluded acc := by
  intro ds
  induction ds with
  | nil => intro excluded acc; rfl
  | cons d rest ih =>
    intro excluded acc
    by_cases h : d.ivpkM = np.ivpkM
    · have hne : ¬(d.ivpkM ≠ np.ivpkM) := by simp [h]
      rw [List.filter_cons_of_pos (by simpa using h)]
      simp only [decodeDeferredNotesAux]
      rw [if_neg hne, if_neg hne]
      cases hr : (env.produceNoteDaos (some np.ivpkM) none
          ⟨d.note, d.contractAddress, d.storageSlot, d.noteTypeId⟩ d.txHash d.newNoteHashes
          d.dataStartIndexForTx excluded).incomingNote with
      | none => simp [hr]
      | some n => simp [hr, ih]
    · rw [List.filter_cons_of_neg (by simpa using h)]
      simp only [decodeDeferredNotesAux]
      rw [if_pos h]
      exact ih _ _

/-- Claim C9: in `decodeDeferredNotes`, every record whose account key
differs from this pipeline's incoming viewing key is silently skipped
(dropping all such records changes neither the result nor the error
behavior), and as soon as the loop reaches a record of this pipeline that
still fails to materialize, the call fails with the fatal
deferred-retry error. -/
theorem claimC9 (env : Env) (np : NoteProcessor) (ds : List DeferredNoteDao) :
    (NoteProcessor.decodeDeferredNotes env np ds =
      NoteProcessor.decodeDeferredNotes env np (ds.filter (fun d => d.ivpkM == np.ivpkM))) ∧
    (∀ (d : DeferredNoteDao) (rest : List DeferredNoteDao)
        (excluded : List Nat) (acc : List IncomingNoteDao),
      d.ivpkM = np.ivpkM →
      (env.produceNoteDaos (some np.ivpkM) none
          ⟨d.note, d.contractAddress, d.storageSlot, d.noteTypeId⟩ d.txHash d.newNoteHashes
          d.dataStartIndexForTx excluded).incomingNote = none →
      decodeDeferredNotesAux env np (d :: rest) excluded acc = .error .deferredRetryFailed) := by
  constructor
  · exact decodeDeferredNotesAux_filter env np ds [] []
  · intro d rest excluded acc hmine hfail
    unfold decodeDeferredNotesAux
    rw [if_neg (by simpa using hmine)]
    simp only [hfail]

/-- Witness for claim C9: with an environment whose materialization always
fails, a foreign record (account key 99) is skipped without error, and a
record of this account (key 10) makes the call fail fatally. -/
theorem claimC9_witness :
    (NoteProcessor.decodeDeferredNotes noDecryptEnv exNp [⟨99, 1, 2, 3, 4, 5, [], 0⟩] =
      NoteProcessor.decodeDeferredNotes noDecryptEnv exNp
        (([⟨99, 1, 2, 3, 4, 5, [], 0⟩] : List DeferredNoteDao).filter
          (fun d => d.ivpkM == exNp.ivpkM))) ∧
    decodeDeferredNotesAux noDecryptEnv exNp [⟨10, 1, 2, 3, 4, 5, [], 0⟩] [] [] =
      .error .deferredRetryFailed :=
  ⟨(claimC9 noDecryptEnv exNp [⟨99, 1, 2, 3, 4, 5, [], 0⟩]).1,
    (claimC9 noDecryptEnv exNp []).2 ⟨10, 1, 2, 3, 4, 5, [], 0⟩ [] [] [] rfl rfl⟩

/-
  Claim C2.
-/

/-- Reading the watermark just written for a key returns that value. -/
theorem getSynched_set (db : Db) (pk : PK) (n : Int) :
    (db.setSynchedBlockNumberForPublicKey pk n).getSynchedBlockNumberForPublicKey pk = some n := by
  simp [Db.setSynchedBlockNumberForPublicKey, Db.getSynchedBlockNumberForPublicKey, List.find?]

/-- Counterexample to claim C2 as stated: the watermark is set
unconditionally to the batch's last block number, so feeding a batch
ending at block 3 after a batch ending at block 5 regresses the note
pipeline's watermark. -/
theorem claimC2_counterexample :
    getSyncedToBlock exNp
        (runProcess noDecryptEnv exNp
          (runProcess noDecryptEnv exNp emptyDb [mkBlock 5] [emptyLogs])
          [mkBlock 3] [emptyLogs]) <
      getSyncedToBlock exNp (runProcess noDecryptEnv exNp emptyDb [mkBlock 5] [emptyLogs]) := by
  decide

/-- Claim C2 (amended): for every pipeline given nonempty batches in
block-number order — the batch's last block number at least the current
watermark — the watermark is non-decreasing, and the watermark write is
the final persistence operation, issued only after the batch's record
mutations. First conjunct: the note pipeline; second conjunct: the
transaction-pool state machine. -/
theorem claimC2_amended :
    (∀ (env : Env) (np : NoteProcessor) (db : Db) (blocks : List L2Block)
        (logs : List EncryptedNoteL2BlockL2Logs) (db' : Db) (trace : List DbOp),
      NoteProcessor.process env np db blocks logs = .ok (db', trace) →
      blocks ≠ [] →
      getSyncedToBlock np db ≤ lastBlockNumber blocks →
      getSyncedToBlock np db ≤ getSyncedToBlock np db' ∧
      trace.getLast? = some (DbOp.setSynchedBlock np.ivpkM (lastBlockNumber blocks))) ∧
    (∀ (env : Env) (s : P2PState) (blocks : List L2Block),
      blocks ≠ [] →
      s.currentL2BlockNum ≤ lastBlockNumber blocks →
      s.currentL2BlockNum ≤ (P2PClient.handleL2Blocks env s blocks).1.currentL2BlockNum ∧
      (P2PClient.handleL2Blocks env s blocks).2.getLast? =
        some (P2POp.setSyncedBlock (lastBlockNumber blocks))) := by
  constructor
  · intro env np db blocks logs db' trace h hne hmono
    unfold NoteProcessor.process at h
    split at h
    · exact absurd h (by simp)
    · split at h
      · rename_i hemp
        exact absurd (List.isEmpty_iff.mp hemp) hne
      · dsimp only at h
        split at h
        · exact absurd h (by simp)
        · rename_i pds defs hpb
          rw [Except.ok.injEq, Prod.mk.injEq] at h
          obtain ⟨hdb, htrace⟩ := h
          constructor
          · rw [← hdb]
            have : getSyncedToBlock np
                (((processDeferredNotes (processBlocksAndNotes np db pds).1 defs).1).setSynchedBlockNumberForPublicKey
                  np.ivpkM (lastBlockNumber blocks)) = lastBlockNumber blocks := by
              unfold getSyncedToBlock
              rw [getSynched_set]
              rfl
            rw [this]
            exact hmono
          · rw [← htrace]
            exact List.getLast?_concat _
  · intro env s blocks hne hmono
    unfold P2PClient.handleL2Blocks
    rw [if_neg (by simpa [List.isEmpty_iff] using hne)]
    dsimp only
    constructor
    · split
      · exact hmono
      · exact hmono
    · exact List.getLast?_concat _

/-- Witness for the amended claim C2: a concrete in-order batch for each
pipeline, showing the watermark advance (0 to 5 for the note pipeline, 5
to 7 for the pool) and the watermark write as the last issued operation. -/
theorem claimC2_amended_witness :
    (getSyncedToBlock exNp emptyDb ≤ getSyncedToBlock exNp ⟨[], [], [], [(10, 5)]⟩ ∧
      ([DbOp.removeNullifiedNotes [] 10, DbOp.setSynchedBlock 10 5] : List DbOp).getLast? =
        some (DbOp.setSynchedBlock exNp.ivpkM (lastBlockNumber [mkBlock 5]))) ∧
    (idleState.currentL2BlockNum ≤
        (P2PClient.handleL2Blocks tipEnv5 idleState [mkBlock 7]).1.currentL2BlockNum ∧
      (P2PClient.handleL2Blocks tipEnv5 idleState [mkBlock 7]).2.getLast? =
        some (P2POp.setSyncedBlock (lastBlockNumber [mkBlock 7]))) :=
  ⟨claimC2_amended.1 noDecryptEnv exNp emptyDb [mkBlock 5] [emptyLogs] ⟨[], [], [], [(10, 5)]⟩
      [DbOp.removeNullifiedNotes [] 10, DbOp.setSynchedBlock 10 5] (by decide) (by decide)
      (by decide),
    claimC2_amended.2 tipEnv5 idleState [mkBlock 7] (by decide) (by decide)⟩

/-
  Claim C1.
-/

/-- Bulk-persisting empty record lists is a no-op on the store. -/
theorem Db.addNotes_nil (db : Db) : db.addNotes [] [] = db := by
  cases db
  simp [Db.addNotes]

/-- Bulk-persisting an empty deferred list is a no-op on the store. -/
theorem Db.addDeferredNotes_nil (db : Db) : db.addDeferredNotes [] = db := by
  cases db
  simp [Db.addDeferredNotes]

/-- The operations issued by `processBlocksAndNotes`: the conditional
bulk-persist of the batch's records followed by the nullifier removal. -/
theorem processBlocksAndNotes_snd (np : NoteProcessor) (db : Db) (pds : List ProcessedData) :
    (processBlocksAndNotes np db pds).2 =
      (if (incomingOfBatch pds).isEmpty && (outgoingOfBatch pds).isEmpty then ([] : List DbOp)
        else [DbOp.addNotes (incomingOfBatch pds) (outgoingOfBatch pds)]) ++
      [DbOp.removeNullifiedNotes (batchNullifiers pds) np.ivpkM] := by
  unfold processBlocksAndNotes
  dsimp only
  split <;> rfl

/-- The store produced by `processBlocksAndNotes`: records appended (a
no-op when there are none), then nullified incoming records removed. -/
theorem processBlocksAndNotes_fst (np : NoteProcessor) (db : Db) (pds : List ProcessedData) :
    (processBlocksAndNotes np db pds).1 =
      (db.addNotes (incomingOfBatch pds) (outgoingOfBatch pds)).removeNullifiedNotes
        (batchNullifiers pds) np.ivpkM := by
  unfold processBlocksAndNotes
  dsimp only
  split
  · rename_i hc
    rw [Bool.and_eq_true, List.isEmpty_iff, List.isEmpty_iff] at hc
    rw [hc.1, hc.2, Db.addNotes_nil]
  · rfl

/-- The operations issued by `processDeferredNotes`: the conditional
bulk-persist of the deferred records. -/
theorem processDeferredNotes_snd (db : Db) (ds : List DeferredNoteDao) :
    (processDeferredNotes db ds).2 =
      (if ds.isEmpty then ([] : List DbOp) else [DbOp.addDeferredNotes ds]) := by
  unfold processDeferredNotes
  split <;> rfl

/-- The store produced by `processDeferredNotes`: the deferred records
appended (a no-op when there are none). -/
theorem processDeferredNotes_fst (db : Db) (ds : List DeferredNoteDao) :
    (processDeferredNotes db ds).1 = db.addDeferredNotes ds := by
  unfold processDeferredNotes
  split
  · rename_i hc
    rw [List.isEmpty_iff] at hc
    rw [hc, Db.addDeferredNotes_nil]
  · rfl

/-- The result of a successful non-empty `process` call, as a function of
the batch-loop output. -/
theorem process_ok_eq (env : Env) (np : NoteProcessor) (db : Db)
    (blocks : List L2Block) (logs : List EncryptedNoteL2BlockL2Logs)
    (pds : List ProcessedData) (defs : List DeferredNoteDao)
    (hne : blocks ≠ []) (hlen : blocks.length = logs.length)
    (hpb : processBatch env np (env.getMasterSecretKey np.ivpkM)
        (env.getMasterSecretKey np.ovpkM) (blocks.zip logs) = .ok (pds, defs)) :
    NoteProcessor.process env np db blocks logs =
      .ok (((processDeferredNotes (processBlocksAndNotes np db pds).1 defs).1).setSynchedBlockNumberForPublicKey
            np.ivpkM (lastBlockNumber blocks),
        (processBlocksAndNotes np db pds).2 ++
          (processDeferredNotes (processBlocksAndNotes np db pds).1 defs).2 ++
          [DbOp.setSynchedBlock np.ivpkM (lastBlockNumber blocks)]) := by
  unfold NoteProcessor.process
  rw [if_neg (by simp [hlen]), if_neg (by simpa [List.isEmpty_iff] using hne)]
  dsimp only
  rw [hpb]

/-- Counterexample to claim C1 as stated: on a concrete batch that defers
one note, the pipeline issues the nullifier removal BEFORE bulk-persisting
the deferred records (the claimed order has the deferred persist first):
the trace is remove-nullified, then add-deferred, then watermark. -/
theorem claimC1_counterexample :
    NoteProcessor.process defEnv exNp emptyDb [blockD] [logsD] =
      .ok (⟨[], [], [⟨10, 1, 2, 3, 4, 7, [], 0⟩], [(10, 5)]⟩,
        [DbOp.removeNullifiedNotes [] 10,
          DbOp.addDeferredNotes [⟨10, 1, 2, 3, 4, 7, [], 0⟩],
          DbOp.setSynchedBlock 10 5]) := by
  decide

/-- Claim C1 (amended): for every accepted non-empty batch, the post-loop
persistence steps occur in this order: bulk-persist the accumulated
incoming and outgoing records (skipped when there are none), then remove
previously persisted incoming records whose nullifier is in the union of
all nullifiers emitted by the batch's transactions, then bulk-persist the
deferred records (skipped when there are none), and finally persist the
watermark as the batch's last block number. -/
theorem claimC1_amended (env : Env) (np : NoteProcessor) (db : Db)
    (blocks : List L2Block) (logs : List EncryptedNoteL2BlockL2Logs)
    (pds : List ProcessedData) (defs : List DeferredNoteDao)
    (hne : blocks ≠ []) (hlen : blocks.length = logs.length)
    (hpb : processBatch env np (env.getMasterSecretKey np.ivpkM)
        (env.getMasterSecretKey np.ovpkM) (blocks.zip logs) = .ok (pds, defs)) :
    NoteProcessor.process env np db blocks logs =
      .ok (((processDeferredNotes (processBlocksAndNotes np db pds).1 defs).1).setSynchedBlockNumberForPublicKey
            np.ivpkM (lastBlockNumber blocks),
        ((if (incomingOfBatch pds).isEmpty && (outgoingOfBatch pds).isEmpty then ([] : List DbOp)
            else [DbOp.addNotes (incomingOfBatch pds) (outgoingOfBatch pds)]) ++
          [DbOp.removeNullifiedNotes (batchNullifiers pds) np.ivpkM]) ++
          (if defs.isEmpty then ([] : List DbOp) else [DbOp.addDeferredNotes defs]) ++
          [DbOp.setSynchedBlock np.ivpkM (lastBlockNumber blocks)]) := by
  rw [process_ok_eq env np db blocks logs pds defs hne hlen hpb,
    processBlocksAndNotes_snd, processDeferredNotes_snd]

/-- Witness for the amended claim C1: a concrete one-block batch with no
decryptable logs issues exactly the nullifier removal followed by the
watermark write. -/
theorem claimC1_amended_witness :
    NoteProcessor.process noDecryptEnv exNp emptyDb [mkBlock 5] [emptyLogs] =
      .ok (⟨[], [], [], [(10, 5)]⟩,
        [DbOp.removeNullifiedNotes [] 10, DbOp.setSynchedBlock 10 5]) :=
  claimC1_amended noDecryptEnv exNp emptyDb [mkBlock 5] [emptyLogs]
    [⟨mkBlock 5, [], []⟩] [] (by decide) (by decide) (by decide)

/-
  Claim C3.
-/

/-- A log decrypts successfully both as incoming and as outgoing, but the
two decrypted payloads differ. -/
def logConflicts (env : Env) (ivskM ovskM : SK) (log : EncryptedLog) : Bool :=
  match env.decryptAsIncoming log.data ivskM, env.decryptAsOutgoing log.data ovskM with
  | some it, some ot => if it.notePayload = ot.notePayload then false else true
  | _, _ => false

/-- Some log of the transaction conflicts. -/
def txLogsHaveConflict (env : Env) (ivskM ovskM : SK) (txLog : TxL2Logs) : Prop :=
  ∃ f ∈ txLog.functionLogs, ∃ lg ∈ f.logs, logConflicts env ivskM ovskM lg = true

/-- Some log of the block conflicts. -/
def blockLogsHaveConflict (env : Env) (ivskM ovskM : SK)
    (blockLogs : EncryptedNoteL2BlockL2Logs) : Prop :=
  ∃ tl ∈ blockLogs.txLogs, txLogsHaveConflict env ivskM ovskM tl

/-- Some log of the batch conflicts. -/
def batchHasConflict (env : Env) (ivskM ovskM : SK)
    (logs : List EncryptedNoteL2BlockL2Logs) : Prop :=
  ∃ bl ∈ logs, blockLogsHaveConflict env ivskM ovskM bl

instance (env : Env) (ivskM ovskM : SK) (logs : List EncryptedNoteL2BlockL2Logs) :
    Decidable (batchHasConflict env ivskM ovskM logs) := by
  unfold batchHasConflict blockLogsHaveConflict txLogsHaveConflict
  exact inferInstance

/-- The only error the per-log step can raise is the payload conflict. -/
theorem processLog_error (env : Env) (np : NoteProcessor) (ivskM ovskM : SK)
    (txHash : TxHash) (hashes : List Fr) (dsi : Int) (log : EncryptedLog) (acc : TxAcc)
    (e : PError)
    (h : processLog env np ivskM ovskM txHash hashes dsi log acc = .error e) :
    e = .decryptionPayloadConflict := by
  unfold processLog at h
  split at h
  · exact Except.noConfusion h
  · split at h
    · exact Except.noConfusion h
    · exact (Except.error.inj h).symm
  · exact Except.noConfusion h
  · exact Except.noConfusion h

/-- A conflicting log makes the per-log step fail with the payload
conflict, whatever the accumulator. -/
theorem processLog_conflict (env : Env) (np : NoteProcessor) (ivskM ovskM : SK)
    (txHash : TxHash) (hashes : List Fr) (dsi : Int) (log : EncryptedLog) (acc : TxAcc)
    (h : logConflicts env ivskM ovskM log = true) :
    processLog env np ivskM ovskM txHash hashes dsi log acc =
      .error .decryptionPayloadConflict := by
  unfold logConflicts at h
  unfold processLog
  cases hi : env.decryptAsIncoming log.data ivskM with
  | none =>
    cases ho : env.decryptAsOutgoing log.data ovskM with
    | none => rw [hi, ho] at h; simp at h
    | some ot => rw [hi, ho] at h; simp at h
  | some it =>
    cases ho : env.decryptAsOutgoing log.data ovskM with
    | none => rw [hi, ho] at h; simp at h
    | some ot =>
      rw [hi, ho] at h
      dsimp only at h ⊢
      split at h
      · simp at h
      · rename_i hne
        rw [if_neg hne]

/-- The only error the per-transaction log loop can raise is the payload
conflict. -/
theorem processLogList_error (env : Env) (np : NoteProcessor) (ivskM ovskM : SK)
    (txHash : TxHash) (hashes : List Fr) (dsi : Int) :
    ∀ (logs : List EncryptedLog) (acc : TxAcc) (e : PError),
      processLogList env np ivskM ovskM txHash hashes dsi logs acc = .error e →
      e = .decryptionPayloadConflict := by
  intro logs
  induction logs with
  | nil => intro acc e h; exact Except.noConfusion h
  | cons l rest ih =>
    intro acc e h
    unfold processLogList at h
    split at h
    · rename_i e' hp
      exact (Except.error.inj h) ▸ processLog_error env np ivskM ovskM txHash hashes dsi l acc e' hp
    · rename_i acc' hp
      exact ih acc' e h

/-- A conflicting log anywhere in the transaction's logs makes the log
loop fail with the payload conflict. -/
theorem processLogList_conflict (env : Env) (np : NoteProcessor) (ivskM ovskM : SK)
    (txHash : TxHash) (hashes : List Fr) (dsi : Int) :
    ∀ (logs : List EncryptedLog) (acc : TxAcc),
      (∃ lg ∈ logs, logConflicts env ivskM ovskM lg = true) →
      processLogList env np ivskM ovskM txHash hashes dsi logs acc =
        .error .decryptionPayloadConflict := by
  intro logs
  induction logs with
  | nil =>
    rintro acc ⟨lg, hmem, _⟩
    simp at hmem
  | cons l rest ih =>
    rintro acc ⟨lg, hmem, hc⟩
    unfold processLogList
    rcases List.mem_cons.mp hmem with h1 | h1
    · rw [h1] at hc
      rw [processLog_conflict env np ivskM ovskM txHash hashes dsi l acc hc]
    · cases hp : processLog env np ivskM ovskM txHash hashes dsi l acc with
      | error e =>
        dsimp only
        rw [processLog_error env np ivskM ovskM txHash hashes dsi l acc e hp]
      | ok acc' =>
        dsimp only
        exact ih acc' ⟨lg, h1, hc⟩

/-- The only error the per-transaction step can raise is the payload
conflict. -/
theorem processTx_error (env : Env) (np : NoteProcessor) (ivskM ovskM : SK)
    (block : L2Block) (i : Nat) (txLog : TxL2Logs) (e : PError)
    (h : processTx env np ivskM ovskM block i txLog = .error e) :
    e = .decryptionPayloadConflict := by
  unfold processTx at h
  exact processLogList_error env np ivskM ovskM _ _ _ _ _ e h

/-- A conflicting log in the transaction makes the per-transaction step
fail with the payload conflict. -/
theorem processTx_conflict (env : Env) (np : NoteProcessor) (ivskM ovskM : SK)
    (block : L2Block) (i : Nat) (txLog : TxL2Logs)
    (h : txLogsHaveConflict env ivskM ovskM txLog) :
    processTx env np ivskM ovskM block i txLog = .error .decryptionPayloadConflict := by
  unfold processTx
  apply processLogList_conflict
  obtain ⟨f, hf, lg, hlg, hc⟩ := h
  exact ⟨lg, List.mem_flatMap.mpr ⟨f, hf, hlg⟩, hc⟩

/-- The only error the per-block transaction loop can raise is the
payload conflict. -/
theorem processTxs_error (env : Env) (np : NoteProcessor) (ivskM ovskM : SK)
    (block : L2Block) :
    ∀ (txLogsList : List TxL2Logs) (i : Nat) (e : PError),
      processTxs env np ivskM ovskM block i txLogsList = .error e →
      e = .decryptionPayloadConflict := by
  intro txLogsList
  induction txLogsList with
  | nil => intro i e h; exact Except.noConfusion h
  | cons tl rest ih =>
    intro i e h
    unfold processTxs at h
    split at h
    · rename_i e' hp
      have he : e' = e := Except.error.inj h
      exact he ▸ processTx_error env np ivskM ovskM block i tl e' hp
    · rename_i acc hp
      split at h
      · rename_i e' hq
        have he : e' = e := Except.error.inj h
        exact he ▸ ih (i + 1) e' hq
      · exact Except.noConfusion h

/-- A conflicting log in some transaction of the block makes the
transaction loop fail with the payload conflict, from any start index. -/
theorem processTxs_conflict (env : Env) (np : NoteProcessor) (ivskM ovskM : SK)
    (block : L2Block) :
    ∀ (txLogsList : List TxL2Logs) (i : Nat),
      (∃ tl ∈ txLogsList, txLogsHaveConflict env ivskM ovskM tl) →
      processTxs env np ivskM ovskM block i txLogsList =
        .error .decryptionPayloadConflict := by
  intro txLogsList
  induction txLogsList with
  | nil =>
    rintro i ⟨tl, hmem, _⟩
    simp at hmem
  | cons t rest ih =>
    rintro i ⟨tl, hmem, hc⟩
    unfold processTxs
    rcases List.mem_cons.mp hmem with h1 | h1
    · rw [processTx_conflict env np ivskM ovskM block i t (h1 ▸ hc)]
    · cases hp : processTx env np ivskM ovskM block i t with
      | error e =>
        dsimp only
        rw [processTx_error env np ivskM ovskM block i t e hp]
      | ok acc =>
        dsimp only
        rw [ih (i + 1) ⟨tl, h1, hc⟩]

/-- The only error the per-block step can raise is the payload conflict. -/
theorem processBlock_error (env : Env) (np : NoteProcessor) (ivskM ovskM : SK)
    (block : L2Block) (blockLogs : EncryptedNoteL2BlockL2Logs) (e : PError)
    (h : processBlock env np ivskM ovskM block blockLogs = .error e) :
    e = .decryptionPayloadConflict := by
  unfold processBlock at h
  split at h
  · rename_i e' hp
    have he : e' = e := Except.error.inj h
    exact he ▸ processTxs_error env np ivskM ovskM block blockLogs.txLogs 0 e' hp
  · exact Except.noConfusion h

/-- A conflicting log in the block makes the per-block step fail with the
payload conflict. -/
theorem processBlock_conflict (env : Env) (np : NoteProcessor) (ivskM ovskM : SK)
    (block : L2Block) (blockLogs : EncryptedNoteL2BlockL2Logs)
    (h : blockLogsHaveConflict env ivskM ovskM blockLogs) :
    processBlock env np ivskM ovskM block blockLogs =
      .error .decryptionPayloadConflict := by
  unfold processBlock
  rw [processTxs_conflict env np ivskM ovskM block blockLogs.txLogs 0 h]

/-- A conflicting log anywhere in the batch makes the batch loop fail with
the payload conflict. -/
theorem processBatch_conflict (env : Env) (np : NoteProcessor) (ivskM ovskM : SK) :
    ∀ (blocks : List L2Block) (logs : List EncryptedNoteL2BlockL2Logs),
      blocks.length = logs.length →
      batchHasConflict env ivskM ovskM logs →
      processBatch env np ivskM ovskM (blocks.zip logs) =
        .error .decryptionPayloadConflict := by
  intro blocks
  induction blocks with
  | nil =>
    intro logs hlen hconf
    obtain ⟨bl, hmem, _⟩ := hconf
    rw [List.length_nil] at hlen
    rw [List.eq_nil_of_length_eq_zero hlen.symm] at hmem
    simp at hmem
  | cons b bs ih =>
    intro logs hlen hconf
    cases logs with
    | nil => simp at hlen
    | cons l ls =>
      obtain ⟨bl, hmem, hc⟩ := hconf
      rw [List.zip_cons_cons]
      unfold processBatch
      rcases List.mem_cons.mp hmem with h1 | h1
      · rw [processBlock_conflict env np ivskM ovskM b l (h1 ▸ hc)]
      · cases hp : processBlock env np ivskM ovskM b l with
        | error e =>
          dsimp only
          rw [processBlock_error env np ivskM ovskM b l e hp]
        | ok pd =>
          dsimp only
          have hlen' : bs.length = ls.length := by
            rw [List.length_cons, List.length_cons] at hlen
            omega
          rw [ih ls hlen' ⟨bl, h1, hc⟩]

/-- Claim C3: whenever some log of an accepted batch decrypts successfully
both as incoming and as outgoing with different payloads, `process` fails
with the decryption-payload-conflict error; since all persistence happens
after the batch loop, nothing is committed and the watermark is
unchanged. -/
theorem claimC3 (env : Env) (np : NoteProcessor) (db : Db)
    (blocks : List L2Block) (logs : List EncryptedNoteL2BlockL2Logs)
    (hlen : blocks.length = logs.length)
    (hconf : batchHasConflict env (env.getMasterSecretKey np.ivpkM)
      (env.getMasterSecretKey np.ovpkM) logs) :
    NoteProcessor.process env np db blocks logs = .error .decryptionPayloadConflict ∧
    runProcess env np db blocks logs = db := by
  have hne : blocks ≠ [] := by
    intro hb
    obtain ⟨bl, hmem, _⟩ := hconf
    rw [hb, List.length_nil] at hlen
    rw [List.eq_nil_of_length_eq_zero hlen.symm] at hmem
    simp at hmem
  have hmain : NoteProcessor.process env np db blocks logs =
      .error .decryptionPayloadConflict := by
    unfold NoteProcessor.process
    rw [if_neg (by simp [hlen]), if_neg (by simpa [List.isEmpty_iff] using hne)]
    dsimp only
    rw [processBatch_conflict env np (env.getMasterSecretKey np.ivpkM)
      (env.getMasterSecretKey np.ovpkM) blocks logs hlen hconf]
  refine ⟨hmain, ?_⟩
  unfold runProcess
  rw [hmain]

/-- An environment in which every log decrypts as incoming with payload
note 1 and as outgoing with payload note 2 — a payload conflict. -/
def conflictEnv : Env :=
  ⟨fun pk => pk, fun _ _ => some ⟨⟨1, 0, 0, 0⟩⟩, fun _ _ => some ⟨⟨2, 0, 0, 0⟩⟩,
    fun _ _ _ _ _ _ ex => ⟨none, none, none, ex⟩, 0, fun _ => []⟩

/-- Witness for claim C3: a concrete one-block batch whose single log
decrypts both ways with different payloads fails with the conflict error
and leaves the store unchanged. -/
theorem claimC3_witness :
    NoteProcessor.process conflictEnv exNp emptyDb [blockD] [logsD] =
      .error .decryptionPayloadConflict ∧
    runProcess conflictEnv exNp emptyDb [blockD] [logsD] = emptyDb :=
  claimC3 conflictEnv exNp emptyDb [blockD] [logsD] (by decide) (by decide)

/-
  Claim C5.
-/

/-- An environment in which every log decrypts as incoming and
materializes into an incoming record with siloed nullifier 7 for the
decrypting account. -/
def crossEnv : Env :=
  ⟨fun pk => pk, fun _ _ => some ⟨⟨1, 2, 3, 4⟩⟩, fun _ _ => none,
    fun ipk _ p _ _ _ ex =>
      ⟨some ⟨p.contractAddress, p.storageSlot, p.noteTypeId, p.note, 7, ipk.getD 0⟩,
        none, none, ex⟩,
    0, fun _ => []⟩

/-- A block numbered 5 whose only transaction emits nullifier 7. -/
def crossB5 : L2Block := ⟨5, ⟨64⟩, ⟨1, [⟨1, [], [7]⟩]⟩⟩

/-- A block numbered 6 with one transaction and no nullifiers. -/
def crossB6 : L2Block := ⟨6, ⟨64⟩, ⟨1, [⟨2, [], []⟩]⟩⟩

/-- Counterexample to claim C5 as stated: block 5 emits nullifier 7 and
block 6 derives an incoming note with that same nullifier. Processing
`[5, 6]` in one call removes the new note (the batch's nullifier union is
applied after all additions), while processing `[5]` then `[6]` keeps it
(block 5's nullifier was applied before the note existed), so the final
stores differ. -/
theorem claimC5_counterexample :
    runProcess crossEnv exNp (runProcess crossEnv exNp emptyDb [crossB5] [emptyLogs])
        [crossB6] [logsD] ≠
      runProcess crossEnv exNp emptyDb [crossB5, crossB6] [emptyLogs, logsD] := by
  decide

/-- The batch loop distributes over list append. -/
theorem processBatch_append (env : Env) (np : NoteProcessor) (ivskM ovskM : SK) :
    ∀ (z1 z2 : List (L2Block × EncryptedNoteL2BlockL2Logs))
      (p1 : List ProcessedData) (d1 : List DeferredNoteDao)
      (p2 : List ProcessedData) (d2 : List DeferredNoteDao),
      processBatch env np ivskM ovskM z1 = .ok (p1, d1) →
      processBatch env np ivskM ovskM z2 = .ok (p2, d2) →
      processBatch env np ivskM ovskM (z1 ++ z2) = .ok (p1 ++ p2, d1 ++ d2) := by
  intro z1
  induction z1 with
  | nil =>
    intro z2 p1 d1 p2 d2 h1 h2
    simp only [processBatch] at h1
    rw [Except.ok.injEq, Prod.mk.injEq] at h1
    obtain ⟨hp1, hd1⟩ := h1
    rw [← hp1, ← hd1]
    simpa using h2
  | cons bl rest ih =>
    intro z2 p1 d1 p2 d2 h1 h2
    obtain ⟨b, l⟩ := bl
    rw [List.cons_append]
    unfold processBatch at h1 ⊢
    split at h1
    · exact Except.noConfusion h1
    · rename_i pd defs hp
      split at h1
      · exact Except.noConfusion h1
      · rename_i pds more hq
        rw [Except.ok.injEq, Prod.mk.injEq] at h1
        obtain ⟨hp1, hd1⟩ := h1
        rw [ih z2 pds more p2 d2 hq h2]
        dsimp only
        rw [← hp1, ← hd1]
        simp

/-- The incoming records of an appended batch. -/
theorem incomingOfBatch_append (p1 p2 : List ProcessedData) :
    incomingOfBatch (p1 ++ p2) = incomingOfBatch p1 ++ incomingOfBatch p2 :=
  List.flatMap_append p1 p2 _

/-- The outgoing records of an appended batch. -/
theorem outgoingOfBatch_append (p1 p2 : List ProcessedData) :
    outgoingOfBatch (p1 ++ p2) = outgoingOfBatch p1 ++ outgoingOfBatch p2 :=
  List.flatMap_append p1 p2 _

/-- The nullifier union of an appended batch. -/
theorem batchNullifiers_append (p1 p2 : List ProcessedData) :
    batchNullifiers (p1 ++ p2) = batchNullifiers p1 ++ batchNullifiers p2 :=
  List.flatMap_append p1 p2 _

/-- The last block number of an appended non-empty batch. -/
theorem lastBlockNumber_append (b1 b2 : List L2Block) (h : b2 ≠ []) :
    lastBlockNumber (b1 ++ b2) = lastBlockNumber b2 := by
  unfold lastBlockNumber
  rw [List.getLast?_append_of_ne_nil b1 h]

/-- `contains` over an appended list of nullifiers. -/
theorem contains_append_fr (l1 l2 : List Fr) (x : Fr) :
    (l1 ++ l2).contains x = (l1.contains x || l2.contains x) := by
  induction l1 with
  | nil => simp
  | cons a t ih => simp [List.contains_cons, ih, Bool.or_assoc]

/-- Removing the union of two nullifier sets equals removing them one
after the other. -/
theorem filter_removeNull_append (pk : PK) (n1 n2 : List Fr) (l : List IncomingNoteDao) :
    l.filter (fun n => !(n.ivpkM == pk && (n1 ++ n2).contains n.siloedNullifier)) =
      (l.filter (fun n => !(n.ivpkM == pk && n1.contains n.siloedNullifier))).filter
        (fun n => !(n.ivpkM == pk && n2.contains n.siloedNullifier)) := by
  rw [List.filter_filter]
  apply List.filter_congr
  intro x _
  rw [contains_append_fr]
  cases hb : x.ivpkM == pk <;> cases h1 : n1.contains x.siloedNullifier <;>
    cases h2 : n2.contains x.siloedNullifier <;> rfl

/-- Records none of which are nullified survive the removal filter. -/
theorem filter_removeNull_eq_self (pk : PK) (n1 : List Fr) (l : List IncomingNoteDao)
    (h : ∀ n ∈ l, n.ivpkM = pk → n.siloedNullifier ∉ n1) :
    l.filter (fun n => !(n.ivpkM == pk && n1.contains n.siloedNullifier)) = l := by
  apply List.filter_eq_self.mpr
  intro n hn
  cases hb : n.ivpkM == pk with
  | false => rfl
  | true =>
    have hc : n1.contains n.siloedNullifier = false := by
      simpa using h n hn (by simpa using hb)
    rw [hc]
    rfl

/-- The final store of one `process` call that accepted a non-empty batch:
records appended, nullified incoming records removed, deferred records
appended, watermark written. -/
theorem runProcess_ok_eq (env : Env) (np : NoteProcessor) (db : Db)
    (blocks : List L2Block) (logs : List EncryptedNoteL2BlockL2Logs)
    (pds : List ProcessedData) (defs : List DeferredNoteDao)
    (hne : blocks ≠ []) (hlen : blocks.length = logs.length)
    (hpb : processBatch env np (env.getMasterSecretKey np.ivpkM)
        (env.getMasterSecretKey np.ovpkM) (blocks.zip logs) = .ok (pds, defs)) :
    runProcess env np db blocks logs =
      (((db.addNotes (incomingOfBatch pds) (outgoingOfBatch pds)).removeNullifiedNotes
          (batchNullifiers pds) np.ivpkM).addDeferredNotes defs).setSynchedBlockNumberForPublicKey
        np.ivpkM (lastBlockNumber blocks) := by
  unfold runProcess
  rw [process_ok_eq env np db blocks logs pds defs hne hlen hpb]
  rw [processDeferredNotes_fst, processBlocksAndNotes_fst]

/-- Splitting the store mutations of a batch at a block boundary yields
the joined mutations, provided no incoming record of the second part is
nullified by the first part. -/
theorem db_split_joined (db : Db) (pk : PK)
    (inc1 inc2 : List IncomingNoteDao) (out1 out2 : List OutgoingNoteDao)
    (n1 n2 : List Fr) (d1 d2 : List DeferredNoteDao) (last1 last2 : Int)
    (hcross : ∀ n ∈ inc2, n.ivpkM = pk → n.siloedNullifier ∉ n1) :
    (((((((db.addNotes inc1 out1).removeNullifiedNotes n1 pk).addDeferredNotes
          d1).setSynchedBlockNumberForPublicKey pk last1).addNotes
          inc2 out2).removeNullifiedNotes n2 pk).addDeferredNotes
          d2).setSynchedBlockNumberForPublicKey pk last2 =
      (((db.addNotes (inc1 ++ inc2) (out1 ++ out2)).removeNullifiedNotes (n1 ++ n2)
          pk).addDeferredNotes (d1 ++ d2)).setSynchedBlockNumberForPublicKey pk last2 := by
  obtain ⟨a, b, c, d⟩ := db
  simp only [Db.addNotes, Db.removeNullifiedNotes, Db.addDeferredNotes,
    Db.setSynchedBlockNumberForPublicKey]
  rw [Db.mk.injEq]
  refine ⟨?_, ?_, ?_, ?_⟩
  · conv_rhs => rw [filter_removeNull_append pk n1 n2, ← List.append_assoc,
      List.filter_append, filter_removeNull_eq_self pk n1 inc2 hcross]
  · rw [List.append_assoc]
  · rw [List.append_assoc]
  · rw [List.filter_cons_of_neg (by simp), List.filter_filter]
    congr 1
    apply List.filter_congr
    intro x _
    rw [Bool.and_self]

/-- Claim C5 (amended): splitting a batch into two consecutive sub-batches
and calling `process` twice yields the same final store and watermark as
one call on the whole batch, provided no incoming record derived from the
second sub-batch carries a nullifier already emitted in the first
sub-batch (for such adversarial data the single call removes the record
while the split calls keep it). -/
theorem claimC5_amended (env : Env) (np : NoteProcessor) (db : Db)
    (b1 b2 : List L2Block) (l1 l2 : List EncryptedNoteL2BlockL2Logs)
    (pd1 pd2 : List ProcessedData) (d1 d2 : List DeferredNoteDao)
    (hne1 : b1 ≠ []) (hne2 : b2 ≠ [])
    (hlen1 : b1.length = l1.length) (hlen2 : b2.length = l2.length)
    (hb1 : processBatch env np (env.getMasterSecretKey np.ivpkM)
        (env.getMasterSecretKey np.ovpkM) (b1.zip l1) = .ok (pd1, d1))
    (hb2 : processBatch env np (env.getMasterSecretKey np.ivpkM)
        (env.getMasterSecretKey np.ovpkM) (b2.zip l2) = .ok (pd2, d2))
    (hcross : ∀ n ∈ incomingOfBatch pd2, n.ivpkM = np.ivpkM →
      n.siloedNullifier ∉ batchNullifiers pd1) :
    runProcess env np (runProcess env np db b1 l1) b2 l2 =
      runProcess env np db (b1 ++ b2) (l1 ++ l2) := by
  rw [runProcess_ok_eq env np db b1 l1 pd1 d1 hne1 hlen1 hb1]
  rw [runProcess_ok_eq env np _ b2 l2 pd2 d2 hne2 hlen2 hb2]
  have hpbJ : processBatch env np (env.getMasterSecretKey np.ivpkM)
      (env.getMasterSecretKey np.ovpkM) ((b1 ++ b2).zip (l1 ++ l2)) =
      .ok (pd1 ++ pd2, d1 ++ d2) := by
    rw [List.zip_append hlen1]
    exact processBatch_append env np _ _ (b1.zip l1) (b2.zip l2) pd1 d1 pd2 d2 hb1 hb2
  rw [runProcess_ok_eq env np db (b1 ++ b2) (l1 ++ l2) (pd1 ++ pd2) (d1 ++ d2)
    (fun h => hne1 (List.append_eq_nil.mp h).1) (by simp [hlen1, hlen2]) hpbJ]
  rw [incomingOfBatch_append, outgoingOfBatch_append, batchNullifiers_append,
    lastBlockNumber_append b1 b2 hne2]
  exact db_split_joined db np.ivpkM (incomingOfBatch pd1) (incomingOfBatch pd2)
    (outgoingOfBatch pd1) (outgoingOfBatch pd2) (batchNullifiers pd1) (batchNullifiers pd2)
    d1 d2 (lastBlockNumber b1) (lastBlockNumber b2) hcross

/-- Witness for the amended claim C5: splitting the concrete batch
`[block 5, block 6]` (no decryptable logs) gives the same final store as
the single call. -/
theorem claimC5_amended_witness :
    runProcess noDecryptEnv exNp (runProcess noDecryptEnv exNp emptyDb [mkBlock 5] [emptyLogs])
        [mkBlock 6] [emptyLogs] =
      runProcess noDecryptEnv exNp emptyDb [mkBlock 5, mkBlock 6] [emptyLogs, emptyLogs] :=
  claimC5_amended noDecryptEnv exNp emptyDb [mkBlock 5] [mkBlock 6] [emptyLogs] [emptyLogs]
    [⟨mkBlock 5, [], []⟩] [⟨mkBlock 6, [], []⟩] [] []
    (by decide) (by decide) (by decide) (by decide) (by decide) (by decide) (by decide)

end Aztec
